import Mathlib

/-!
Shallow embedding of the two computational-graph topologies built in
`cnn-functional.ipynb` (Linear-Stack) and `cnn-siamese.ipynb` (Y-network).
Every layer the notebooks call from the external framework
(`Conv2D`, `MaxPooling2D`, `Flatten`, `concatenate`, `Dense`) is embedded
with the semantics those calls have there (default arguments included:
pooling uses window 2, stride 2, valid padding; convolution uses
kernel 3, stride 1, same padding, relu, bias).  Values are exact
rationals for the convolutional pipeline; the softmax head is embedded
over the reals because it needs the exponential.  A tensor is one batch
element: every layer here maps over the batch axis elementwise, so the
batch dimension is carried by the surrounding list of inputs and is not
part of the tensor value.
-/

/-- One batch element of a rank-3 (height, width, channels) tensor.
Reads outside the shape are junk and never observed by `eqOn`. -/
structure Tensor3 where
  H : ℕ
  W : ℕ
  C : ℕ
  data : ℕ → ℕ → ℕ → ℚ

/-- One batch element of a rank-1 (features) tensor. -/
structure Tensor1 where
  N : ℕ
  data : ℕ → ℚ

/-- Observational equality of two rank-3 tensors: same shape and the same
entries everywhere inside the shape. -/
def Tensor3.eqOn (a b : Tensor3) : Prop :=
  a.H = b.H ∧ a.W = b.W ∧ a.C = b.C ∧
    ∀ i < a.H, ∀ j < a.W, ∀ c < a.C, a.data i j c = b.data i j c

instance (a b : Tensor3) : Decidable (a.eqOn b) := by
  unfold Tensor3.eqOn
  infer_instance

/-- Zero-padded read: spatial indices outside the tensor read as 0,
as under the framework's `same` (zero) padding. -/
def Tensor3.getP (t : Tensor3) (i j : ℤ) (c : ℕ) : ℚ :=
  if 0 ≤ i ∧ i < (t.H : ℤ) ∧ 0 ≤ j ∧ j < (t.W : ℤ) then
    t.data i.toNat j.toNat c
  else 0

/-- Rectified-linear activation (`activation='relu'`). -/
def relu (x : ℚ) : ℚ := max x 0

/-- `kernel_size = 3`, from the network-parameters cell of both notebooks. -/
def kernel_size : ℕ := 3

/-- `filters = 64`, from the network-parameters cell of both notebooks. -/
def filters : ℕ := 64

/-- Modelled from the spec: `num_labels = len(np.unique(y_train))` is
computed from the MNIST training labels, a dataset outside this
repository; the spec fixes it at 10 distinct digit classes. -/
def num_labels : ℕ := 10

/-- The learned parameters of one `Conv2D` layer: a kernel indexed by
(kernel row, kernel column, input channel, filter) and one bias per
filter.  Each layer object constructed in the notebooks owns its own
value of this type. -/
structure ConvParams where
  w : ℕ → ℕ → ℕ → ℕ → ℚ
  bias : ℕ → ℚ

/-- `Conv2D(filters=F, kernel_size=k, padding='same', activation='relu',
dilation_rate=d)` applied to one batch element: stride-1 cross-correlation
with zero `same` padding (total padding `d*(k-1)`, split evenly, which is
exact for odd `k`), bias, then relu.  Spatial shape is preserved. -/
def conv2D (k d F : ℕ) (p : ConvParams) (t : Tensor3) : Tensor3 :=
  ⟨t.H, t.W, F, fun i j f =>
    relu (p.bias f +
      ∑ a in Finset.range k, ∑ b in Finset.range k, ∑ c in Finset.range t.C,
        p.w a b c f *
          t.getP ((i : ℤ) + (d : ℤ) * a - (d * (k - 1)) / 2)
                 ((j : ℤ) + (d : ℤ) * b - (d * (k - 1)) / 2) c)⟩

/-- `MaxPooling2D()` with its default arguments: 2×2 windows, stride 2,
valid padding, so each spatial dimension becomes its floor half and each
output entry is the maximum of a non-overlapping 2×2 window that lies
fully inside the input (a trailing odd row/column is dropped).  No
learned parameters: a pure function of its input. -/
def maxPooling2D (t : Tensor3) : Tensor3 :=
  ⟨t.H / 2, t.W / 2, t.C, fun i j c =>
    max (max (t.data (2 * i) (2 * j) c) (t.data (2 * i) (2 * j + 1) c))
        (max (t.data (2 * i + 1) (2 * j) c) (t.data (2 * i + 1) (2 * j + 1) c))⟩

/-- `Flatten()` on one batch element: row-major (height, then width, then
channels) reshape to a single feature axis. -/
def flatten (t : Tensor3) : Tensor1 :=
  ⟨t.H * t.W * t.C, fun n => t.data (n / (t.W * t.C)) (n / t.C % t.W) (n % t.C)⟩

/-- Inverse reshape of `flatten` given the original shape. -/
def unflatten (H W C : ℕ) (v : Tensor1) : Tensor3 :=
  ⟨H, W, C, fun i j c => v.data ((i * W + j) * C + c)⟩

/-- `concatenate([a, b])` along the trailing channel axis: at graph
construction the layer checks that every non-concatenated axis agrees and
raises otherwise, so the embedding returns `none` — no output tensor at
all — on any spatial mismatch. -/
def concatenate (a b : Tensor3) : Option Tensor3 :=
  if a.H = b.H ∧ a.W = b.W then
    some ⟨a.H, a.W, a.C + b.C, fun i j c =>
      if c < a.C then a.data i j c else b.data i j (c - a.C)⟩
  else none

/-- The learned affine projection of `Dense(n, activation='softmax')`:
kernel times input plus bias, giving `n` class scores.  The softmax
normalization that follows is embedded separately (`denseSoftmax`),
since it needs the real exponential; it does not change the length. -/
def dense (n : ℕ) (W : ℕ → ℕ → ℚ) (b : ℕ → ℚ) (v : Tensor1) : Tensor1 :=
  ⟨n, fun i => b i + ∑ j in Finset.range v.N, W i j * v.data j⟩

/-- Softmax normalization over the class axis, on the reals. -/
noncomputable def softmax (n : ℕ) (z : Fin n → ℝ) : Fin n → ℝ :=
  fun i => Real.exp (z i) / ∑ j, Real.exp (z j)

/-- `Dense(n, activation='softmax')` over the reals: learned affine
projection followed by softmax. -/
noncomputable def denseSoftmax (n m : ℕ) (W : Fin n → Fin m → ℝ)
    (b : Fin n → ℝ) (x : Fin m → ℝ) : Fin n → ℝ :=
  softmax n (fun i => b i + ∑ j, W i j * x j)

/-- One convolution stage as both notebooks configure it:
`Conv2D(filters=filters, kernel_size=kernel_size, padding='same',
activation='relu')`, with the dilation rate `d` (1 on the left/linear
stack, 2 on the right branch of the Y-network). -/
def convStage (d : ℕ) (p : ConvParams) (t : Tensor3) : Tensor3 :=
  conv2D kernel_size d filters p t

/-- The convolutional part of the Linear-Stack topology
(`cnn-functional.ipynb`): Conv2D, MaxPooling2D, Conv2D, MaxPooling2D,
Conv2D — pooling follows only the first two convolutions. -/
def linearStackFeatures (p1 p2 p3 : ConvParams) (t : Tensor3) : Tensor3 :=
  convStage 1 p3 (maxPooling2D (convStage 1 p2 (maxPooling2D (convStage 1 p1 t))))

/-- The Linear-Stack features flattened to a vector (`Flatten()`). -/
def linearStackFlat (p1 p2 p3 : ConvParams) (t : Tensor3) : Tensor1 :=
  flatten (linearStackFeatures p1 p2 p3 t)

/-- The full Linear-Stack topology up to the class scores:
features, flatten, `Dense(num_labels, 'softmax')` head. -/
def linearStackOutput (p1 p2 p3 : ConvParams) (dW : ℕ → ℕ → ℚ) (db : ℕ → ℚ)
    (t : Tensor3) : Tensor1 :=
  dense num_labels dW db (linearStackFlat p1 p2 p3 t)

/-- One branch of the Y-network (`cnn-siamese.ipynb`): the unrolled
`for i in range(3)` loop, each iteration a convolution stage with
dilation `d` followed by `MaxPooling2D()`.  `ps i` is the parameter set
of the `Conv2D` layer constructed on loop iteration `i`. -/
def branchStack (d : ℕ) (ps : Fin 3 → ConvParams) (t : Tensor3) : Tensor3 :=
  maxPooling2D (convStage d (ps 2)
    (maxPooling2D (convStage d (ps 1)
      (maxPooling2D (convStage d (ps 0) t)))))

/-- All trainable parameters of the Y-network: the three left-branch
`Conv2D` layers, the three right-branch `Conv2D` layers (six distinct
layer objects in the source, none shared), and the dense head. -/
structure YParams where
  left : Fin 3 → ConvParams
  right : Fin 3 → ConvParams
  denseW : ℕ → ℕ → ℚ
  denseB : ℕ → ℚ

/-- Left branch of the Y-network: dilation 1, the left parameters only. -/
def leftBranch (p : YParams) (t : Tensor3) : Tensor3 :=
  branchStack 1 p.left t

/-- Right branch of the Y-network: `dilation_rate=2`, the right
parameters only. -/
def rightBranch (p : YParams) (t : Tensor3) : Tensor3 :=
  branchStack 2 p.right t

/-- `concatenate([x, y])` of the two branch outputs on the same input
image (the model is trained with the same data fed to both inputs). -/
def yMerged (p : YParams) (t : Tensor3) : Option Tensor3 :=
  concatenate (leftBranch p t) (rightBranch p t)

/-- The full Y-network up to the class scores: merge, `Flatten()`,
`Dense(num_labels, 'softmax')` head. -/
def yOutput (p : YParams) (t : Tensor3) : Option Tensor1 :=
  (yMerged p t).map (fun m => dense num_labels p.denseW p.denseB (flatten m))

/-- An optimizer step on the `i`-th left-branch `Conv2D` layer alone:
replace its parameters, touch nothing else. -/
def updateLeft (p : YParams) (i : Fin 3) (c : ConvParams) : YParams :=
  { p with left := Function.update p.left i c }

/-- An optimizer step on the `i`-th right-branch `Conv2D` layer alone. -/
def updateRight (p : YParams) (i : Fin 3) (c : ConvParams) : YParams :=
  { p with right := Function.update p.right i c }

/-- A concrete all-zero image tensor of the given shape. -/
def zeroT (h w c : ℕ) : Tensor3 := ⟨h, w, c, fun _ _ _ => 0⟩

/-- A concrete all-one image tensor of the given shape. -/
def onesT (h w c : ℕ) : Tensor3 := ⟨h, w, c, fun _ _ _ => 1⟩

/-- All-zero convolution parameters. -/
def zeroConv : ConvParams := ⟨fun _ _ _ _ => 0, fun _ => 0⟩

/-- All-one kernel, zero bias. -/
def onesConv : ConvParams := ⟨fun _ _ _ _ => 1, fun _ => 0⟩

/-- All-zero Y-network parameters. -/
def zeroY : YParams := ⟨fun _ => zeroConv, fun _ => zeroConv, fun _ _ => 0, fun _ => 0⟩

/-- A 7×7×64 tensor that is nonzero exactly on its last (7th) row and
last (7th) column. -/
def t7edge : Tensor3 :=
  ⟨7, 7, 64, fun i j _ => if i = 6 ∨ j = 6 then 1 else 0⟩

/-! ## Helper lemmas -/

/-- Row-major flattening hits exactly the original entries: the feature
at flat index `(i*W + j)*C + c` is the tensor entry at `(i, j, c)`. -/
theorem flatten_index (t : Tensor3) (i j c : ℕ)
    (_hi : i < t.H) (hj : j < t.W) (hc : c < t.C) :
    (flatten t).data ((i * t.W + j) * t.C + c) = t.data i j c := by
  have hC : 0 < t.C := lt_of_le_of_lt (Nat.zero_le c) hc
  have hW : 0 < t.W := lt_of_le_of_lt (Nat.zero_le j) hj
  have hWC : 0 < t.W * t.C := Nat.mul_pos hW hC
  have hlt : j * t.C + c < t.W * t.C := by
    calc j * t.C + c < j * t.C + t.C := by omega
      _ = (j + 1) * t.C := by ring
      _ ≤ t.W * t.C := Nat.mul_le_mul_right _ (Nat.succ_le_of_lt hj)
  have h3 : ((i * t.W + j) * t.C + c) % t.C = c := by
    rw [Nat.add_comm, Nat.add_mul_mod_self_right, Nat.mod_eq_of_lt hc]
  have h2 : ((i * t.W + j) * t.C + c) / t.C % t.W = j := by
    have hq : ((i * t.W + j) * t.C + c) / t.C = i * t.W + j := by
      rw [Nat.add_comm, Nat.add_mul_div_right _ _ hC, Nat.div_eq_of_lt hc,
        Nat.zero_add]
    rw [hq, Nat.add_comm, Nat.add_mul_mod_self_right, Nat.mod_eq_of_lt hj]
  have h1 : ((i * t.W + j) * t.C + c) / (t.W * t.C) = i := by
    have hE : (i * t.W + j) * t.C + c = (j * t.C + c) + i * (t.W * t.C) := by
      ring
    rw [hE, Nat.add_mul_div_right _ _ hWC, Nat.div_eq_of_lt hlt, Nat.zero_add]
  show t.data (((i * t.W + j) * t.C + c) / (t.W * t.C))
      (((i * t.W + j) * t.C + c) / t.C % t.W)
      (((i * t.W + j) * t.C + c) % t.C) = t.data i j c
  rw [h1, h2, h3]

/-- A convolution with all-zero parameters outputs zero everywhere. -/
theorem conv2D_zero_params (k d F : ℕ) (t : Tensor3) (i j f : ℕ) :
    (conv2D k d F zeroConv t).data i j f = 0 := by
  simp [conv2D, zeroConv, relu]

/-! ## C1 -/

/-- C1 counterexample: on an 8×8×1 input (spatial dimensions divisible
by 8) the Linear-Stack branch flattens to 2·2·64 = 256 features, not the
⌈8/8⌉·⌈8/8⌉·64 = 64 the claim predicts — the Linear-Stack applies only
two downsampling stages, not three. -/
theorem linearStack_div8_counterexample :
    (linearStackFlat zeroConv zeroConv zeroConv (zeroT 8 8 1)).N = 256 ∧
      (linearStackFlat zeroConv zeroConv zeroConv (zeroT 8 8 1)).N ≠
        8 / 8 * (8 / 8) * 64 := by
  decide

/-- C1 (amended): each branch of the Y-topology applies a downsampling
stage after every one of its three convolution stages, so for spatial
dimensions divisible by 8 it outputs ⌈H/8⌉×⌈W/8⌉ at channel width 64;
the Linear-Stack topology applies downsampling only after its first two
convolution stages, so its output is (H/4)×(W/4) at channel width 64 and
its flattened vector has length (H/4)·(W/4)·64. -/
theorem pooling_counts_amended (pL pR : Fin 3 → ConvParams)
    (p1 p2 p3 : ConvParams) (t : Tensor3) (hH : 8 ∣ t.H) (hW : 8 ∣ t.W) :
    (branchStack 1 pL t).H = t.H / 8 ∧ (branchStack 1 pL t).W = t.W / 8 ∧
    (branchStack 1 pL t).C = 64 ∧
    (branchStack 2 pR t).H = t.H / 8 ∧ (branchStack 2 pR t).W = t.W / 8 ∧
    (branchStack 2 pR t).C = 64 ∧
    (linearStackFeatures p1 p2 p3 t).H = t.H / 4 ∧
    (linearStackFeatures p1 p2 p3 t).W = t.W / 4 ∧
    (linearStackFeatures p1 p2 p3 t).C = 64 ∧
    (linearStackFlat p1 p2 p3 t).N = t.H / 4 * (t.W / 4) * 64 := by
  have e8H : t.H / 2 / 2 / 2 = t.H / 8 := by omega
  have e8W : t.W / 2 / 2 / 2 = t.W / 8 := by omega
  have e4H : t.H / 2 / 2 = t.H / 4 := by omega
  have e4W : t.W / 2 / 2 = t.W / 4 := by omega
  refine ⟨e8H, e8W, rfl, e8H, e8W, rfl, e4H, e4W, rfl, ?_⟩
  show t.H / 2 / 2 * (t.W / 2 / 2) * 64 = t.H / 4 * (t.W / 4) * 64
  rw [e4H, e4W]

/-- Witness for C1 (amended) at the all-zero 8×8×1 input. -/
theorem pooling_counts_amended_witness :
    8 ∣ (zeroT 8 8 1).H ∧
      (branchStack 1 (fun _ => zeroConv) (zeroT 8 8 1)).H = (zeroT 8 8 1).H / 8 ∧
      (linearStackFlat zeroConv zeroConv zeroConv (zeroT 8 8 1)).N =
        (zeroT 8 8 1).H / 4 * ((zeroT 8 8 1).W / 4) * 64 := by
  have h := pooling_counts_amended (fun _ => zeroConv) (fun _ => zeroConv)
    zeroConv zeroConv zeroConv (zeroT 8 8 1) (by decide) (by decide)
  exact ⟨by decide, h.1, h.2.2.2.2.2.2.2.2.2⟩

/-! ## C2 -/

/-- C2 counterexample: a 7×7×1 input pools to spatial size 3, not the
⌈7/2⌉ = 4 the claim predicts — the downsampling stage uses valid
padding, so odd trailing rows/columns are dropped (floor, not ceiling). -/
theorem maxPooling2D_ceil_counterexample :
    (maxPooling2D (zeroT 7 7 1)).H = 3 ∧
      (maxPooling2D (zeroT 7 7 1)).H ≠ (7 + 1) / 2 := by
  decide

/-- C2 (amended): the downsampling stage maps a (H,W,C) tensor to a
(⌊H/2⌋,⌊W/2⌋,C) tensor, each output element being the maximum value
within a non-overlapping 2×2 window of the input (the last row/column of
an odd-sized input is dropped), with no learned parameters. -/
theorem maxPooling2D_floor_amended (t : Tensor3) :
    (maxPooling2D t).H = t.H / 2 ∧ (maxPooling2D t).W = t.W / 2 ∧
    (maxPooling2D t).C = t.C ∧
    ∀ i < t.H / 2, ∀ j < t.W / 2, ∀ c,
      (∀ a < 2, ∀ b < 2,
        t.data (2 * i + a) (2 * j + b) c ≤ (maxPooling2D t).data i j c) ∧
      ∃ a < 2, ∃ b < 2,
        (maxPooling2D t).data i j c = t.data (2 * i + a) (2 * j + b) c := by
  refine ⟨rfl, rfl, rfl, fun i _ j _ c => ⟨?_, ?_⟩⟩
  · intro a ha b hb
    interval_cases a <;> interval_cases b <;>
      simp [maxPooling2D, le_max_iff, le_refl]
  · rcases max_choice (max (t.data (2*i) (2*j) c) (t.data (2*i) (2*j+1) c))
      (max (t.data (2*i+1) (2*j) c) (t.data (2*i+1) (2*j+1) c)) with h0 | h0
    · rcases max_choice (t.data (2*i) (2*j) c) (t.data (2*i) (2*j+1) c)
        with h1 | h1
      · exact ⟨0, by omega, 0, by omega, h0.trans h1⟩
      · exact ⟨0, by omega, 1, by omega, h0.trans h1⟩
    · rcases max_choice (t.data (2*i+1) (2*j) c) (t.data (2*i+1) (2*j+1) c)
        with h1 | h1
      · exact ⟨1, by omega, 0, by omega, h0.trans h1⟩
      · exact ⟨1, by omega, 1, by omega, h0.trans h1⟩

/-- Witness for C2 (amended) at a concrete 7×7×1 input. -/
theorem maxPooling2D_floor_amended_witness :
    (maxPooling2D (zeroT 7 7 1)).H = (zeroT 7 7 1).H / 2 ∧
      (∀ a < 2, ∀ b < 2,
        (zeroT 7 7 1).data (2 * 0 + a) (2 * 0 + b) 0 ≤
          (maxPooling2D (zeroT 7 7 1)).data 0 0 0) := by
  have h := maxPooling2D_floor_amended (zeroT 7 7 1)
  exact ⟨h.1, (h.2.2.2 0 (by decide) 0 (by decide) 0).1⟩

/-! ## Shape projection lemmas -/

/-- `same`-padding convolution preserves the input height. -/
theorem conv2D_H (k d F : ℕ) (p : ConvParams) (t : Tensor3) :
    (conv2D k d F p t).H = t.H := rfl

/-- `same`-padding convolution preserves the input width. -/
theorem conv2D_W (k d F : ℕ) (p : ConvParams) (t : Tensor3) :
    (conv2D k d F p t).W = t.W := rfl

/-- Convolution outputs one channel per filter. -/
theorem conv2D_C (k d F : ℕ) (p : ConvParams) (t : Tensor3) :
    (conv2D k d F p t).C = F := rfl

/-- Pooling halves the height (floor). -/
theorem maxPooling2D_H (t : Tensor3) : (maxPooling2D t).H = t.H / 2 := rfl

/-- Pooling halves the width (floor). -/
theorem maxPooling2D_W (t : Tensor3) : (maxPooling2D t).W = t.W / 2 := rfl

/-- Pooling preserves the channel count. -/
theorem maxPooling2D_C (t : Tensor3) : (maxPooling2D t).C = t.C := rfl

/-- Flattening yields H·W·C features. -/
theorem flatten_N (t : Tensor3) : (flatten t).N = t.H * t.W * t.C := rfl

/-- The dense head yields one score per class. -/
theorem dense_N (n : ℕ) (W : ℕ → ℕ → ℚ) (b : ℕ → ℚ) (v : Tensor1) :
    (dense n W b v).N = n := rfl

/-! ## C3 -/

/-- C3: a 28×28×1 input through the Linear-Stack topology produces the
intermediate shapes 28×28×64 (conv 1), 14×14×64 (pool 1), 14×14×64
(conv 2), 7×7×64 (pool 2), 7×7×64 (conv 3, no pooling after it),
flattens to a vector of length 3136, and the dense head outputs length
10. -/
theorem linearStack_28_shapes (p1 p2 p3 : ConvParams) (dW : ℕ → ℕ → ℚ)
    (db : ℕ → ℚ) (t : Tensor3)
    (hH : t.H = 28) (hW : t.W = 28) (_hC : t.C = 1) :
    ((convStage 1 p1 t).H = 28 ∧ (convStage 1 p1 t).W = 28 ∧
      (convStage 1 p1 t).C = 64) ∧
    ((maxPooling2D (convStage 1 p1 t)).H = 14 ∧
      (maxPooling2D (convStage 1 p1 t)).W = 14 ∧
      (maxPooling2D (convStage 1 p1 t)).C = 64) ∧
    ((convStage 1 p2 (maxPooling2D (convStage 1 p1 t))).H = 14 ∧
      (convStage 1 p2 (maxPooling2D (convStage 1 p1 t))).W = 14 ∧
      (convStage 1 p2 (maxPooling2D (convStage 1 p1 t))).C = 64) ∧
    ((maxPooling2D (convStage 1 p2 (maxPooling2D (convStage 1 p1 t)))).H = 7 ∧
      (maxPooling2D (convStage 1 p2 (maxPooling2D (convStage 1 p1 t)))).W = 7 ∧
      (maxPooling2D (convStage 1 p2 (maxPooling2D (convStage 1 p1 t)))).C = 64) ∧
    ((linearStackFeatures p1 p2 p3 t).H = 7 ∧
      (linearStackFeatures p1 p2 p3 t).W = 7 ∧
      (linearStackFeatures p1 p2 p3 t).C = 64) ∧
    (linearStackFlat p1 p2 p3 t).N = 3136 ∧
    (linearStackOutput p1 p2 p3 dW db t).N = 10 := by
  simp [linearStackOutput, linearStackFlat, linearStackFeatures, convStage,
    conv2D_H, conv2D_W, conv2D_C, maxPooling2D_H, maxPooling2D_W,
    maxPooling2D_C, flatten_N, dense_N, filters, num_labels, hH, hW]

/-- Witness for C3 at the all-zero 28×28×1 input. -/
theorem linearStack_28_shapes_witness :
    (linearStackFlat zeroConv zeroConv zeroConv (zeroT 28 28 1)).N = 3136 ∧
      (linearStackOutput zeroConv zeroConv zeroConv (fun _ _ => 0) (fun _ => 0)
        (zeroT 28 28 1)).N = 10 := by
  have h := linearStack_28_shapes zeroConv zeroConv zeroConv (fun _ _ => 0)
    (fun _ => 0) (zeroT 28 28 1) (by decide) (by decide) (by decide)
  exact ⟨h.2.2.2.2.2.1, h.2.2.2.2.2.2⟩

/-! ## C4 -/

/-- Concatenation succeeds exactly when the spatial axes agree, and then
produces the channel-stacked tensor. -/
theorem concatenate_eq_some (a b : Tensor3) (h1 : a.H = b.H) (h2 : a.W = b.W) :
    concatenate a b = some ⟨a.H, a.W, a.C + b.C, fun i j c =>
      if c < a.C then a.data i j c else b.data i j (c - a.C)⟩ := by
  unfold concatenate
  rw [if_pos ⟨h1, h2⟩]

/-- C4: a 28×28×1 input duplicated into both branches of the Y-topology
produces two 3×3×64 branch outputs; their concatenation succeeds and is
a 3×3×128 tensor (channel width exactly the sum 64+64 of the branches),
which flattens to length 1152 and is projected to a final output of
length 10. -/
theorem yNetwork_28_shapes (p : YParams) (t : Tensor3)
    (hH : t.H = 28) (hW : t.W = 28) (_hC : t.C = 1) :
    ((leftBranch p t).H = 3 ∧ (leftBranch p t).W = 3 ∧
      (leftBranch p t).C = 64) ∧
    ((rightBranch p t).H = 3 ∧ (rightBranch p t).W = 3 ∧
      (rightBranch p t).C = 64) ∧
    ∃ m, yMerged p t = some m ∧
      m.H = 3 ∧ m.W = 3 ∧ m.C = 128 ∧
      m.C = (leftBranch p t).C + (rightBranch p t).C ∧
      (flatten m).N = 1152 ∧
      yOutput p t = some (dense num_labels p.denseW p.denseB (flatten m)) ∧
      (dense num_labels p.denseW p.denseB (flatten m)).N = 10 := by
  have hLH : (leftBranch p t).H = 3 := by
    simp [leftBranch, branchStack, convStage, conv2D_H, maxPooling2D_H, hH]
  have hLW : (leftBranch p t).W = 3 := by
    simp [leftBranch, branchStack, convStage, conv2D_W, maxPooling2D_W, hW]
  have hLC : (leftBranch p t).C = 64 := by
    simp [leftBranch, branchStack, convStage, conv2D_C, maxPooling2D_C, filters]
  have hRH : (rightBranch p t).H = 3 := by
    simp [rightBranch, branchStack, convStage, conv2D_H, maxPooling2D_H, hH]
  have hRW : (rightBranch p t).W = 3 := by
    simp [rightBranch, branchStack, convStage, conv2D_W, maxPooling2D_W, hW]
  have hRC : (rightBranch p t).C = 64 := by
    simp [rightBranch, branchStack, convStage, conv2D_C, maxPooling2D_C, filters]
  have hm : yMerged p t = some ⟨(leftBranch p t).H, (leftBranch p t).W,
      (leftBranch p t).C + (rightBranch p t).C, fun i j c =>
        if c < (leftBranch p t).C then (leftBranch p t).data i j c
        else (rightBranch p t).data i j (c - (leftBranch p t).C)⟩ :=
    concatenate_eq_some (leftBranch p t) (rightBranch p t)
      (hLH.trans hRH.symm) (hLW.trans hRW.symm)
  refine ⟨⟨hLH, hLW, hLC⟩, ⟨hRH, hRW, hRC⟩,
    ⟨(leftBranch p t).H, (leftBranch p t).W,
      (leftBranch p t).C + (rightBranch p t).C, fun i j c =>
        if c < (leftBranch p t).C then (leftBranch p t).data i j c
        else (rightBranch p t).data i j (c - (leftBranch p t).C)⟩,
    hm, hLH, hLW, ?_, ?_, ?_, ?_, ?_⟩
  · show (leftBranch p t).C + (rightBranch p t).C = 128
    rw [hLC, hRC]
  · rfl
  · simp [flatten_N, hLH, hLW, hLC, hRC]
  · unfold yOutput
    rw [hm]
    rfl
  · simp [dense_N, num_labels]

/-- Witness for C4 at the all-zero 28×28×1 input. -/
theorem yNetwork_28_shapes_witness :
    ((leftBranch zeroY (zeroT 28 28 1)).H = 3 ∧
      (leftBranch zeroY (zeroT 28 28 1)).W = 3 ∧
      (leftBranch zeroY (zeroT 28 28 1)).C = 64) ∧
    ((rightBranch zeroY (zeroT 28 28 1)).H = 3 ∧
      (rightBranch zeroY (zeroT 28 28 1)).W = 3 ∧
      (rightBranch zeroY (zeroT 28 28 1)).C = 64) := by
  have h := yNetwork_28_shapes zeroY (zeroT 28 28 1) (by decide) (by decide)
    (by decide)
  exact ⟨h.1, h.2.1⟩

/-! ## C5 -/

/-- C5: concatenating two tensors that disagree on a spatial (non-channel)
axis fails at graph construction: no output tensor is produced at all
(`none`), so nothing downstream (flatten, dense) ever runs on a partial
graph. -/
theorem concatenate_mismatch_fails (a b : Tensor3)
    (h : a.H ≠ b.H ∨ a.W ≠ b.W) :
    concatenate a b = none ∧
      ∀ f : Tensor3 → Tensor1, (concatenate a b).map f = none := by
  have hn : ¬(a.H = b.H ∧ a.W = b.W) := by
    rcases h with h | h
    · exact fun hc => h hc.1
    · exact fun hc => h hc.2
  constructor
  · unfold concatenate
    rw [if_neg hn]
  · intro f
    unfold concatenate
    rw [if_neg hn]
    rfl

/-- Witness for C5: the spec's own example, 3×3×64 against 4×4×64. -/
theorem concatenate_mismatch_fails_witness :
    concatenate (zeroT 3 3 64) (zeroT 4 4 64) = none :=
  (concatenate_mismatch_fails (zeroT 3 3 64) (zeroT 4 4 64)
    (Or.inl (by decide))).1

/-! ## C6 -/

/-- C6: for every weight matrix, bias, and input, the softmax-activated
dense head outputs class scores that sum to exactly 1 and are all
non-negative (the exact-arithmetic idealization of "sum to 1 within
floating-point epsilon"). -/
theorem denseSoftmax_prob (n m : ℕ) (W : Fin n → Fin m → ℝ) (b : Fin n → ℝ)
    (x : Fin m → ℝ) (hn : 0 < n) :
    (∑ i, denseSoftmax n m W b x i) = 1 ∧
      ∀ i, 0 ≤ denseSoftmax n m W b x i := by
  have hne : (Finset.univ : Finset (Fin n)).Nonempty :=
    ⟨⟨0, hn⟩, Finset.mem_univ _⟩
  have hS : 0 < ∑ j, Real.exp (b j + ∑ k, W j k * x k) :=
    Finset.sum_pos (fun j _ => Real.exp_pos _) hne
  constructor
  · show (∑ i, Real.exp (b i + ∑ j, W i j * x j) /
        ∑ j, Real.exp (b j + ∑ k, W j k * x k)) = 1
    rw [← Finset.sum_div, div_self (ne_of_gt hS)]
  · intro i
    show 0 ≤ Real.exp (b i + ∑ j, W i j * x j) /
        ∑ j, Real.exp (b j + ∑ k, W j k * x k)
    exact div_nonneg (Real.exp_pos _).le hS.le

/-- Witness for C6 at a concrete one-class head with zero parameters. -/
theorem denseSoftmax_prob_witness :
    (∑ i, denseSoftmax 1 1 (fun _ _ => 0) (fun _ => 0) (fun _ => 0) i) = 1 ∧
      ∀ i, 0 ≤ denseSoftmax 1 1 (fun _ _ => 0) (fun _ => 0) (fun _ => 0) i :=
  denseSoftmax_prob 1 1 (fun _ _ => 0) (fun _ => 0) (fun _ => 0) (by decide)

/-! ## C7 -/

/-- C7 counterexample: with identical all-zero weights on a 2×2×1 input,
the dilation-1 and dilation-2 convolution stages produce *equal* outputs
even though the 3×3 kernel spans more than one element — so "their
output values differ whenever the kernel spans more than one element" is
false as a universal statement. -/
theorem conv_dilation_differs_counterexample :
    Tensor3.eqOn (conv2D 3 1 1 zeroConv (onesT 2 2 1))
        (conv2D 3 2 1 zeroConv (onesT 2 2 1)) ∧
      1 < kernel_size := by
  refine ⟨⟨rfl, rfl, rfl, fun i _ j _ f _ => ?_⟩, by decide⟩
  rw [conv2D_zero_params, conv2D_zero_params]

/-- C7 (amended): with identical weights and identical input, the
dilated (rate 2) and non-dilated (rate 1) convolution stages always
produce outputs of identical spatial shape (both equal to the input's,
by `same` padding), and their values *can* differ when the kernel spans
more than one element: with an all-one 3×3 kernel on an all-one 2×2×1
input the two outputs disagree. -/
theorem conv_dilation_amended :
    (∀ (p : ConvParams) (t : Tensor3),
      (conv2D kernel_size 1 filters p t).H = (conv2D kernel_size 2 filters p t).H ∧
      (conv2D kernel_size 1 filters p t).W = (conv2D kernel_size 2 filters p t).W ∧
      (conv2D kernel_size 1 filters p t).H = t.H ∧
      (conv2D kernel_size 1 filters p t).W = t.W) ∧
    1 < kernel_size ∧
    ¬ Tensor3.eqOn (conv2D 3 1 1 onesConv (onesT 2 2 1))
        (conv2D 3 2 1 onesConv (onesT 2 2 1)) := by
  refine ⟨fun p t => ⟨rfl, rfl, rfl, rfl⟩, by decide, fun h => ?_⟩
  have hv := h.2.2.2 0 (by decide) 0 (by decide) 0 (by decide)
  have h1 : (conv2D 3 1 1 onesConv (onesT 2 2 1)).data 0 0 0 = 4 := by
    simp only [conv2D, onesConv, onesT, Tensor3.getP, relu,
      Finset.sum_range_succ, Finset.sum_range_zero]
    norm_num [max_def]
  have h2 : (conv2D 3 2 1 onesConv (onesT 2 2 1)).data 0 0 0 = 1 := by
    simp only [conv2D, onesConv, onesT, Tensor3.getP, relu,
      Finset.sum_range_succ, Finset.sum_range_zero]
    norm_num [max_def]
  rw [h1, h2] at hv
  norm_num at hv

/-! ## C8 -/

/-- C8: the Flatten stage is a pure reshape: it produces H·W·C features,
the feature at row-major index (i·W + j)·C + c is exactly the input
entry at (i, j, c) (element identity and count preserved, in a fixed
reordering), and the original tensor is recovered from the flattened
vector given the original shape. -/
theorem flatten_pure_reshape (t : Tensor3) :
    (flatten t).N = t.H * t.W * t.C ∧
    (∀ i < t.H, ∀ j < t.W, ∀ c < t.C,
      (flatten t).data ((i * t.W + j) * t.C + c) = t.data i j c) ∧
    Tensor3.eqOn (unflatten t.H t.W t.C (flatten t)) t := by
  refine ⟨rfl, fun i hi j hj c hc => flatten_index t i j c hi hj hc,
    rfl, rfl, rfl, fun i hi j hj c hc => ?_⟩
  exact flatten_index t i j c hi hj hc

/-- Witness for C8 at a concrete 2×3×4 tensor. -/
theorem flatten_pure_reshape_witness :
    (flatten (onesT 2 3 4)).N = (onesT 2 3 4).H * (onesT 2 3 4).W * (onesT 2 3 4).C ∧
      (flatten (onesT 2 3 4)).data ((1 * (onesT 2 3 4).W + 2) * (onesT 2 3 4).C + 3) =
        (onesT 2 3 4).data 1 2 3 ∧
      Tensor3.eqOn (unflatten (onesT 2 3 4).H (onesT 2 3 4).W (onesT 2 3 4).C
        (flatten (onesT 2 3 4))) (onesT 2 3 4) := by
  have h := flatten_pure_reshape (onesT 2 3 4)
  exact ⟨h.1, h.2.1 1 (by decide) 2 (by decide) 3 (by decide), h.2.2⟩

/-! ## C9 -/

/-- C9: the two branches of the Y-network share no trainable parameters.
Each of the six convolution stages is a distinct layer with its own
parameter slot: replacing the parameters of one left-branch stage leaves
every right-branch stage's parameters — and the whole right branch's
output — unchanged, and vice versa; and within a branch, updating stage
`i` changes only stage `i`'s parameters. -/
theorem siamese_no_weight_sharing (p : YParams) (i : Fin 3) (c : ConvParams)
    (t : Tensor3) :
    (updateLeft p i c).right = p.right ∧
    rightBranch (updateLeft p i c) t = rightBranch p t ∧
    (updateRight p i c).left = p.left ∧
    leftBranch (updateRight p i c) t = leftBranch p t ∧
    (∀ j : Fin 3, j ≠ i → (updateLeft p i c).left j = p.left j) ∧
    (∀ j : Fin 3, j ≠ i → (updateRight p i c).right j = p.right j) ∧
    (updateLeft p i c).left i = c ∧ (updateRight p i c).right i = c := by
  refine ⟨rfl, rfl, rfl, rfl, fun j hj => ?_, fun j hj => ?_, ?_, ?_⟩
  · exact Function.update_noteq hj c p.left
  · exact Function.update_noteq hj c p.right
  · exact Function.update_same i c p.left
  · exact Function.update_same i c p.right

/-- Witness for C9: updating left-branch stage 0 at concrete parameters
leaves right-branch stage 1's parameters and the right branch's output
untouched. -/
theorem siamese_no_weight_sharing_witness :
    (1 : Fin 3) ≠ 0 ∧
      (updateLeft zeroY 0 onesConv).left 1 = zeroY.left 1 ∧
      (updateLeft zeroY 0 onesConv).right = zeroY.right ∧
      rightBranch (updateLeft zeroY 0 onesConv) (zeroT 1 1 1) =
        rightBranch zeroY (zeroT 1 1 1) := by
  have h := siamese_no_weight_sharing zeroY 0 onesConv (zeroT 1 1 1)
  exact ⟨by decide, h.2.2.2.2.1 1 (by decide), h.1, h.2.1⟩

/-! ## C10 -/

/-- C10: a downsampling stage applied to an input with odd spatial
dimensions never reads the last row or last column: two inputs of the
same odd shape that agree away from the last row and column pool to
observationally equal outputs; and on the Y-topology's third pooling
input shape, 7×7×64, the output shape is 3×3×64. -/
theorem maxPooling2D_ignores_last_odd :
    (∀ t u : Tensor3, u.H = t.H → u.W = t.W → u.C = t.C →
      t.H % 2 = 1 → t.W % 2 = 1 →
      (∀ i < t.H - 1, ∀ j < t.W - 1, ∀ c < t.C, t.data i j c = u.data i j c) →
      Tensor3.eqOn (maxPooling2D t) (maxPooling2D u)) ∧
    (∀ t : Tensor3, t.H = 7 → t.W = 7 → t.C = 64 →
      (maxPooling2D t).H = 3 ∧ (maxPooling2D t).W = 3 ∧
        (maxPooling2D t).C = 64) := by
  constructor
  · intro t u hH hW hC hoH hoW hagree
    refine ⟨by rw [maxPooling2D_H, maxPooling2D_H, hH],
      by rw [maxPooling2D_W, maxPooling2D_W, hW],
      by rw [maxPooling2D_C, maxPooling2D_C, hC],
      fun i hi j hj c hc => ?_⟩
    have hi' : i < t.H / 2 := hi
    have hj' : j < t.W / 2 := hj
    have hc' : c < t.C := hc
    have e1 : t.data (2 * i) (2 * j) c = u.data (2 * i) (2 * j) c :=
      hagree _ (by omega) _ (by omega) _ hc'
    have e2 : t.data (2 * i) (2 * j + 1) c = u.data (2 * i) (2 * j + 1) c :=
      hagree _ (by omega) _ (by omega) _ hc'
    have e3 : t.data (2 * i + 1) (2 * j) c = u.data (2 * i + 1) (2 * j) c :=
      hagree _ (by omega) _ (by omega) _ hc'
    have e4 : t.data (2 * i + 1) (2 * j + 1) c = u.data (2 * i + 1) (2 * j + 1) c :=
      hagree _ (by omega) _ (by omega) _ hc'
    show max (max (t.data (2 * i) (2 * j) c) (t.data (2 * i) (2 * j + 1) c))
        (max (t.data (2 * i + 1) (2 * j) c) (t.data (2 * i + 1) (2 * j + 1) c)) =
      max (max (u.data (2 * i) (2 * j) c) (u.data (2 * i) (2 * j + 1) c))
        (max (u.data (2 * i + 1) (2 * j) c) (u.data (2 * i + 1) (2 * j + 1) c))
    rw [e1, e2, e3, e4]
  · intro t h7 h7W h7C
    exact ⟨by rw [maxPooling2D_H, h7], by rw [maxPooling2D_W, h7W],
      by rw [maxPooling2D_C, h7C]⟩

/-- Witness for C10: a 7×7×64 zero tensor against one that differs
exactly on the 7th row and 7th column. -/
theorem maxPooling2D_ignores_last_odd_witness :
    Tensor3.eqOn (maxPooling2D (zeroT 7 7 64)) (maxPooling2D t7edge) ∧
      (maxPooling2D (zeroT 7 7 64)).H = 3 := by
  have h := maxPooling2D_ignores_last_odd
  exact ⟨h.1 (zeroT 7 7 64) t7edge (by decide) (by decide) (by decide)
      (by decide) (by decide)
      (fun i hi j hj c _ => by
        show (0 : ℚ) = if i = 6 ∨ j = 6 then 1 else 0
        have hi' : i < 6 := hi
        have hj' : j < 6 := hj
        rw [if_neg (by omega)]),
    (h.2 (zeroT 7 7 64) (by decide) (by decide) (by decide)).1⟩

/-- Witness for C7 (amended) at a concrete input: identical spatial
shapes for both dilation rates, and an explicit disagreeing pair. -/
theorem conv_dilation_amended_witness :
    ((conv2D kernel_size 1 filters zeroConv (zeroT 4 4 1)).H =
        (conv2D kernel_size 2 filters zeroConv (zeroT 4 4 1)).H ∧
      (conv2D kernel_size 1 filters zeroConv (zeroT 4 4 1)).W =
        (conv2D kernel_size 2 filters zeroConv (zeroT 4 4 1)).W ∧
      (conv2D kernel_size 1 filters zeroConv (zeroT 4 4 1)).H = (zeroT 4 4 1).H ∧
      (conv2D kernel_size 1 filters zeroConv (zeroT 4 4 1)).W = (zeroT 4 4 1).W) ∧
    ¬ Tensor3.eqOn (conv2D 3 1 1 onesConv (onesT 2 2 1))
        (conv2D 3 2 1 onesConv (onesT 2 2 1)) :=
  ⟨conv_dilation_amended.1 zeroConv (zeroT 4 4 1), conv_dilation_amended.2.2⟩
